import Mathlib

/-! The wallet client (`client/wallet.c`).

A shallow embedding of `main` of the wallet command-line client and the
properties of its argument handling and result routing.

Conventions of the embedding.

* A C string is a Lean `String`; `*end != 0` reads as "the unparsed rest is
  not empty".  The argument list `args` is `argv[1..argc-1]`.
* A byte buffer with its length (`stdout_buf`/`stdout_len`) is a `List Nat`.
* Everything the process does to the outside is recorded, in order, in a trace
  of `Event`s; the value handed to `exit` is the `code` of the `Run`.
* The answers of the outside (the remote call, `open`, `write`, `close`,
  `write_srvtab`) are read from a `World`.
* `getopt` is the libc scanner.  It does not depend on what `main` does between
  two calls, so the sequence of its return values is computed from the
  argument list (`getoptScan`) and `main`'s `while` loop consumes that sequence
  one return value per iteration (`optionLoop`).  `permute` selects between
  the POSIX behaviour (the scan stops at the first operand) and the GNU
  behaviour (operands are moved behind the options).
* `free(command)` (line 134) precedes the reads of `command[1]` (line 142)
  and `command[3]` (line 154).  What such a read finds is not fixed by the
  program: it is an answer of the `World` (`freedSlot`), either a string the
  stale pointer still leads to or the death of the process by `SIGSEGV`.
* `xmalloc` is taken to return the vector.
-/

namespace Wallet

/-! ## Data -/

/-- Constants that `config.h` supplies at build time. -/
structure Build where
  SERVER : String
  PORT : Nat
  PACKAGE_STRING : String

/-- The `struct remctl_result` of `remctl.h`: `error` is `none` for a NULL
pointer, a buffer carries its length. -/
structure remctl_result where
  error : Option String
  stdout_buf : List Nat
  stderr_buf : List Nat
  status : Int
  deriving DecidableEq, Repr

/-- What the process does to the outside, in program order. -/
inductive Event where
  | stdoutText (s : String)
  | stdoutBytes (b : List Nat)
  | stderrText (s : String)
  | stderrBytes (b : List Nat)
  | getoptDiag (optopt : Char)
  | remctl (server : String) (port : Nat) (principal : Option String)
      (command : List String)
  | sysOpen (file : String)
  | sysWrite (file : String) (buf : List Nat) (ret : Int)
  | sysClose (file : String)
  | write_srvtab (srvtab : String) (name : String) (file : String)
  | killed (signal : Nat)
  deriving DecidableEq, Repr

/-- A finished process: what it did and the value it passed to `exit`.  A
process killed by a signal never calls `exit`: its trace ends in `killed` and
`code` holds the status a shell reports for it, 128 plus the signal number. -/
structure Run where
  trace : List Event
  code : Int
  deriving DecidableEq, Repr

/-- The answers of the outside.  `remctl` yields `none` for a NULL result;
`openFd`, `writeRet`, `closeRet` are the return values of the system calls;
`strerror` is the text of `errno`; `srvtabDies` is `some m` when the
derived-file writer ends the process with the diagnostic `m`.  `freedSlot
command i` is what following the pointer read from `command[i]` finds once the
vector `command` has been freed: `some s` for a string `s` (the word stored
there, or whatever the allocator left in its place), `none` when the access
kills the process. -/
structure World where
  remctl : String → Nat → Option String → List String → Option remctl_result
  openFd : String → Int
  writeRet : Int → List Nat → Int
  closeRet : Int → Int
  strerror : String
  srvtabDies : String → String → String → Option String
  freedSlot : List String → Nat → Option String

/-- Events of `r` preceded by `evs`. -/
def Run.after (evs : List Event) (r : Run) : Run :=
  ⟨evs ++ r.trace, r.code⟩

/-! ## Library routines used by `main` -/

/-- Modelled from the spec: `die` of util/messages.c, which is not among the
sources: the diagnostic goes to standard error behind the program name and the
process exits with code 1. -/
def die (msg : String) : Run :=
  ⟨[.stderrText ("wallet: " ++ msg ++ "\n")], 1⟩

/-- Modelled from the spec: `sysdie` of util/messages.c, which is not among
the sources: as `die`, with the text of the system error appended. -/
def sysdie (w : World) (msg : String) : Run :=
  ⟨[.stderrText ("wallet: " ++ msg ++ ": " ++ w.strerror ++ "\n")], 1⟩

/-- The number of the signal `SIGSEGV`. -/
def SIGSEGV : Nat := 11

/-- The run of a process from the moment a signal kills it. -/
def killedBy (signal : Nat) : Run :=
  ⟨[.killed signal], 128 + (signal : Int)⟩

/-- Largest `long` (LP64). -/
def LONG_MAX : Int := 9223372036854775807

/-- Smallest `long` (LP64). -/
def LONG_MIN : Int := -9223372036854775808

/-- The C `isspace` in the C locale. -/
def isspace (c : Char) : Bool :=
  c = ' ' || c = '\t' || c = '\n' || c = '\x0b' || c = '\x0c' || c = '\r'

/-- The C `isdigit`. -/
def isdigit (c : Char) : Bool :=
  decide ('0'.toNat ≤ c.toNat) && decide (c.toNat ≤ '9'.toNat)

/-- Value of a run of decimal digits, most significant first. -/
def digitsValue (ds : List Char) : Nat :=
  ds.foldl (fun acc d => acc * 10 + (d.toNat - '0'.toNat)) 0

/-- The libc `strtol(nptr, &end, 10)`: skips white space, reads an optional
sign and the longest run of digits, saturates at `LONG_MIN`/`LONG_MAX`;
returns the value and the unparsed rest.  Without a digit the value is 0 and
the rest is the whole input. -/
def strtol (nptr : List Char) : Int × List Char :=
  let t := nptr.dropWhile isspace
  let neg := t.head? = some '-'
  let u := if t.head? = some '-' ∨ t.head? = some '+' then t.tail else t
  let ds := u.takeWhile isdigit
  if ds = [] then (0, nptr)
  else
    let v : Int := if neg then -(digitsValue ds : Int) else (digitsValue ds : Int)
    (max LONG_MIN (min LONG_MAX v), u.dropWhile isdigit)

/-- One return of `getopt`: an option without argument, an option with its
`optarg`, or `?` for an unknown option character or a missing argument (with
`optopt`). -/
inductive GetoptRet where
  | flag (c : Char)
  | withArg (c : Char) (optarg : String)
  | unknown (c : Char)
  | missing (c : Char)
  deriving DecidableEq, Repr

/-- Looks `c` up in an option string: `none` when absent, else whether a colon
follows it. -/
def optLookup (c : Char) : List Char → Option Bool
  | [] => none
  | o :: rest => if o = c then some (rest.head? = some ':') else optLookup c rest

/-- The returns of `getopt` over one argument `-c₁c₂…` (`chars` are the
characters after the dash), and whether the following argument was taken as an
option argument. -/
def getoptCluster (optstring : List Char) (next : Option String) :
    List Char → List GetoptRet × Bool
  | [] => ([], false)
  | c :: cs =>
    match (if c = ':' then none else optLookup c optstring) with
    | none =>
      let r := getoptCluster optstring next cs
      (.unknown c :: r.1, r.2)
    | some false =>
      let r := getoptCluster optstring next cs
      (.flag c :: r.1, r.2)
    | some true =>
      if cs ≠ [] then ([.withArg c (String.mk cs)], false)
      else
        match next with
        | some a => ([.withArg c a], true)
        | none => ([.missing c], false)

/-- All returns of `getopt` over the argument list until it reports the end of
the options, and the operands `argv[optind..]` left at that point.  `skip`
says that the head was consumed as an option argument. -/
def getoptScan (permute : Bool) (optstring : List Char) :
    Bool → List String → List GetoptRet × List String
  | _, [] => ([], [])
  | true, _ :: rest => getoptScan permute optstring false rest
  | false, a :: rest =>
    if a = "--" then ([], rest)
    else
      match a.data with
      | '-' :: c :: cs =>
        let r := getoptCluster optstring rest.head? (c :: cs)
        let s := getoptScan permute optstring r.2 rest
        (r.1 ++ s.1, s.2)
      | _ =>
        if permute then
          let s := getoptScan permute optstring false rest
          (s.1, a :: s.2)
        else ([], a :: rest)

/-! ## `main` -/

/-- The option string passed to `getopt`. -/
def optstring : List Char := "c:f:k:hp:S:s:v".data

/-- The usage message. -/
def usage_message (b : Build) : String :=
  "Usage: wallet [options] <command> <type> <name> [<arg> ...]\n" ++
  "       wallet [options] acl <command> <id> [<arg> ...]\n" ++
  "\n" ++
  "Options:\n" ++
  "    -c <command>    Command prefix to use (default: wallet)\n" ++
  "    -f <output>     For the get command, output file (default: stdout)\n" ++
  "    -k <principal>  Kerberos principal of the server\n" ++
  "    -h              Display this help\n" ++
  "    -p <port>       Port of server (default: 4444)\n" ++
  "    -S <srvtab>     For the get keytab command, srvtab output file\n" ++
  "    -s <server>     Server hostname (default: " ++ b.SERVER ++ "\n" ++
  "    -v              Display the version of wallet\n"

/-- The function `usage`: the message goes to standard output for status 0,
to standard error otherwise, and the process exits with the status. -/
def usage (b : Build) (status : Int) : Run :=
  ⟨[if status = 0 then .stdoutText (usage_message b) else .stderrText (usage_message b)],
    status⟩

/-- The local variables of `main` that the option loop sets. -/
structure Locals where
  type : String
  server : String
  principal : Option String
  port : Nat
  file : Option String
  srvtab : Option String
  deriving DecidableEq, Repr

/-- The initial values of the locals. -/
def Locals.init (b : Build) : Locals :=
  { type := "wallet", server := b.SERVER, principal := none, port := b.PORT,
    file := none, srvtab := none }

/-- The `while` loop of `main` over the returns of `getopt`: either the
process ends inside the loop or the loop finishes with the locals set. -/
def optionLoop (b : Build) : Locals → List GetoptRet → Except Run Locals
  | l, [] => .ok l
  | l, .withArg c optarg :: evs =>
    if c = 'c' then optionLoop b { l with type := optarg } evs
    else if c = 'f' then optionLoop b { l with file := some optarg } evs
    else if c = 'k' then optionLoop b { l with principal := some optarg } evs
    else if c = 'p' then
      let tmp := (strtol optarg.data).1
      let e := (strtol optarg.data).2
      if tmp ≤ 0 ∨ tmp > 65535 ∨ e ≠ [] then
        .error (die ("invalid port number " ++ optarg))
      else optionLoop b { l with port := (tmp % 65536).toNat } evs
    else if c = 'S' then optionLoop b { l with srvtab := some optarg } evs
    else if c = 's' then optionLoop b { l with server := optarg } evs
    else .error (usage b 1)
  | _, .flag c :: _ =>
    if c = 'h' then .error (usage b 0)
    else if c = 'v' then .error ⟨[.stdoutText (b.PACKAGE_STRING ++ "\n")], 0⟩
    else .error (usage b 1)
  | _, .unknown c :: _ => .error (Run.after [.getoptDiag c] (usage b 1))
  | _, .missing c :: _ => .error (Run.after [.getoptDiag c] (usage b 1))

/-- Lines 72–121 of `main`: the option loop, the count of the operands and the
two checks on `-f` and `-S`.  Either the process ends, or the locals and the
operands (`argv` after `argv += optind`) are handed on. -/
def resolve (permute : Bool) (b : Build) (args : List String) :
    Except Run (Locals × List String) :=
  let s := getoptScan permute optstring false args
  match optionLoop b (Locals.init b) s.1 with
  | .error r => .error r
  | .ok l =>
    let argv := s.2
    if argv.length < 3 then .error (usage b 1)
    else if l.file ≠ none ∧ argv[0]? ≠ some "get" then
      .error (die "-f only supported for get")
    else if l.srvtab ≠ none then
      if argv[0]? ≠ some "get" ∨ argv[1]? ≠ some "keytab" then
        .error (die "-S only supported for get keytab")
      else if l.file = none then
        .error (die "-S option requires -f also be used")
      else .ok (l, argv)
    else .ok (l, argv)

/-- The output-file branch of `main` (lines 143–154).  `command` has been freed
when `command[3]` is read for the derived-file writer. -/
def writeFile (w : World) (l : Locals) (command : List String)
    (result : remctl_result) (file : String) : Run :=
  let fd := w.openFd file
  if fd < 0 then
    Run.after [.sysOpen file] (sysdie w ("open of " ++ file ++ " failed"))
  else
    let status := w.writeRet fd result.stdout_buf
    let wr := Event.sysWrite file result.stdout_buf status
    if status < 0 then
      Run.after [.sysOpen file, wr] (sysdie w ("write to " ++ file ++ " failed"))
    else if status ≠ (result.stdout_buf.length : Int) then
      Run.after [.sysOpen file, wr] (die ("write to " ++ file ++ " truncated"))
    else if w.closeRet fd < 0 then
      Run.after [.sysOpen file, wr, .sysClose file]
        (sysdie w ("close of " ++ file ++ " failed (file probably truncated)"))
    else
      match l.srvtab with
      | some srvtab =>
        match w.freedSlot command 3 with
        | none => Run.after [.sysOpen file, wr, .sysClose file] (killedBy SIGSEGV)
        | some name =>
          match w.srvtabDies srvtab name file with
          | some m =>
            Run.after [.sysOpen file, wr, .sysClose file, .write_srvtab srvtab name file]
              (die m)
          | none =>
            ⟨[.sysOpen file, wr, .sysClose file, .write_srvtab srvtab name file],
              result.status⟩
      | none => ⟨[.sysOpen file, wr, .sysClose file], result.status⟩

/-- Lines 123–158 of `main`: the command vector, the remote call,
`free(command)`, and the routing of the result.  The test of line 142 reads
`command[1]` from the freed vector, and only when `file` is set. -/
def dispatch (w : World) (l : Locals) (argv : List String) : Run :=
  let command := l.type :: argv
  let call := Event.remctl l.server l.port l.principal command
  match w.remctl l.server l.port l.principal command with
  | none => Run.after [call] (sysdie w "cannot allocate memory")
  | some result =>
    Run.after [call]
      (match result.error with
       | some error => ⟨[.stderrText ("wallet: " ++ error ++ "\n")], result.status⟩
       | none =>
         if result.stderr_buf.length > 0 then
           ⟨[.stderrText "wallet: ", .stderrBytes result.stderr_buf], result.status⟩
         else
           match l.file with
           | some file =>
             match w.freedSlot command 1 with
             | none => killedBy SIGSEGV
             | some word =>
               if word = "get" then writeFile w l command result file
               else ⟨[.stdoutBytes result.stdout_buf], result.status⟩
           | none => ⟨[.stdoutBytes result.stdout_buf], result.status⟩)

/-- The program: `resolve`, then `dispatch` when the process is still alive. -/
def main (permute : Bool) (b : Build) (w : World) (args : List String) : Run :=
  match resolve permute b args with
  | .error r => r
  | .ok (l, argv) => dispatch w l argv

/-! ## Vocabulary of the properties -/

/-- The returns of `getopt` over the argument list for the program's option
string: the options of the command line, in order. -/
def options (permute : Bool) (args : List String) : List GetoptRet :=
  (getoptScan permute optstring false args).1

/-- The operands left after the options: the positional words. -/
def words (permute : Bool) (args : List String) : List String :=
  (getoptScan permute optstring false args).2

/-- The port value `v` parses to an integer outside (0, 65535] or leaves
unparsed characters behind the number. -/
def badPort (v : String) : Prop :=
  (strtol v.data).1 ≤ 0 ∨ 65535 < (strtol v.data).1 ∨ (strtol v.data).2 ≠ []

instance (v : String) : Decidable (badPort v) := by
  unfold badPort; infer_instance

/-- The option is one the loop steps over: `-c`, `-f`, `-k`, `-S`, `-s` with
an argument, or `-p` with a port that is not bad. -/
def passes : GetoptRet → Prop
  | .withArg c a =>
    c = 'c' ∨ c = 'f' ∨ c = 'k' ∨ c = 'S' ∨ c = 's' ∨ (c = 'p' ∧ ¬ badPort a)
  | _ => False

instance (e : GetoptRet) : Decidable (passes e) := by
  cases e <;> (unfold passes; infer_instance)

/-- The argument of the last option `-c` among the returns, if there is one. -/
def lastArg (c : Char) : List GetoptRet → Option String
  | [] => none
  | .withArg c' a :: evs => (lastArg c evs).or (if c' = c then some a else none)
  | _ :: evs => lastArg c evs

/-- The event is the remote call. -/
def isRemctl : Event → Bool
  | .remctl .. => true
  | _ => false

/-- The remote calls of a trace. -/
def remctlCalls (tr : List Event) : List Event := tr.filter isRemctl

/-- The event is a call of the derived-file writer. -/
def isSrvtab : Event → Bool
  | .write_srvtab .. => true
  | _ => false

/-- The event writes to standard output. -/
def isStdout : Event → Bool
  | .stdoutText _ => true
  | .stdoutBytes _ => true
  | _ => false

/-- The event is a system call on a file. -/
def isFileOp : Event → Bool
  | .sysOpen _ => true
  | .sysWrite .. => true
  | .sysClose _ => true
  | _ => false

/-- The bytes that the `write` calls of a trace put into `file`: of each
buffer, as many bytes as the call returned. -/
def fileBytes (file : String) : List Event → List Nat
  | [] => []
  | .sysWrite f buf ret :: tr =>
    (if f = file then buf.take ret.toNat else []) ++ fileBytes file tr
  | _ :: tr => fileBytes file tr

/-- No local step of the output-file branch fails: `open` yields a descriptor,
`write` returns the full length, `close` succeeds and the derived-file writer,
when `-S` asks for it, returns. -/
def localSuccess (w : World) (l : Locals) (argv : List String) (result : remctl_result) :
    Prop :=
  match l.file with
  | none => True
  | some file =>
    0 ≤ w.openFd file ∧
    w.writeRet (w.openFd file) result.stdout_buf = (result.stdout_buf.length : Int) ∧
    0 ≤ w.closeRet (w.openFd file) ∧
    match l.srvtab with
    | none => True
    | some srvtab => w.srvtabDies srvtab (argv.getD 2 "") file = none

instance (w : World) (l : Locals) (argv : List String) (result : remctl_result) :
    Decidable (localSuccess w l argv result) := by
  unfold localSuccess
  cases l.file with
  | none => exact isTrue trivial
  | some file =>
    cases l.srvtab with
    | none => simp only; infer_instance
    | some srvtab => simp only; infer_instance

/-- The primary file of the run is opened, fully written and closed, on the
payload path of a request with `-f` and `-S`. -/
def srvtabPath (w : World) (l : Locals) (result : remctl_result) : Prop :=
  match l.file, l.srvtab with
  | some file, some _ =>
    result.error = none ∧ result.stderr_buf = [] ∧
    0 ≤ w.openFd file ∧
    w.writeRet (w.openFd file) result.stdout_buf = (result.stdout_buf.length : Int) ∧
    0 ≤ w.closeRet (w.openFd file)
  | _, _ => False

instance (w : World) (l : Locals) (result : remctl_result) :
    Decidable (srvtabPath w l result) := by
  unfold srvtabPath
  cases l.file with
  | none => exact isFalse (fun h => h)
  | some file =>
    cases l.srvtab with
    | none => exact isFalse (fun h => h)
    | some srvtab => simp only; infer_instance

/-- The freed vector still reads as it was filled in, at the two slots that
`main` reads after `free(command)`. -/
def vectorSurvives (w : World) (command : List String) : Prop :=
  w.freedSlot command 1 = command[1]? ∧ w.freedSlot command 3 = command[3]?

/-- The event writes to standard error. -/
def isStderr : Event → Bool
  | .stderrText _ => true
  | .stderrBytes _ => true
  | .getoptDiag _ => true
  | _ => false

/-- The run is a fatal local error: exit code 1 and nothing but a diagnostic
on standard error. -/
def fatalRun (r : Run) : Prop :=
  r.code = 1 ∧ r.trace ≠ [] ∧ ∀ ev ∈ r.trace, isStderr ev = true

/-! ## Sample data -/

/-- Build constants for the examples. -/
def exampleBuild : Build := ⟨"wallet.example.org", 4444, "wallet 0.5"⟩

/-- A world for the examples: the remote call answers `result`, every system
call succeeds, `write` writes the whole buffer.  The freed vector behaves as
under the GNU allocator: a vector of at most 129 pointers (the words, the
command type and the sentinel; 1032 bytes) is overwritten so that the next
access through it kills the process, a larger one leads to allocator data
that is no word of the command. -/
def exampleWorld (result : remctl_result) : World :=
  { remctl := fun _ _ _ _ => some result
    openFd := fun _ => 3
    writeRet := fun _ buf => buf.length
    closeRet := fun _ => 0
    strerror := "Input/output error"
    srvtabDies := fun _ _ _ => none
    freedSlot := fun command _ =>
      if command.length + 1 ≤ 129 then none else some "<allocator data>" }

/-- A successful result for the examples: three payload bytes, status 0. -/
def okResult : remctl_result := ⟨none, [107, 101, 121], [], 0⟩

/-- A result for the examples that reports a remote error with status 255. -/
def errorResult : remctl_result := ⟨some "unknown object", [], [], 255⟩

/-- The locals of the example command lines without `-f`. -/
def plainLocals : Locals :=
  { type := "wallet", server := "wallet.example.org", principal := none, port := 4444,
    file := none, srvtab := none }

/-! ## The option loop -/

theorem remctlCalls_die (m : String) : remctlCalls (die m).trace = [] := rfl

theorem remctlCalls_usage (b : Build) (s : Int) : remctlCalls (usage b s).trace = [] := by
  unfold usage remctlCalls
  by_cases h : s = 0 <;> simp [h, isRemctl]

/-- A run that ends inside the option loop makes no remote call. -/
theorem optionLoop_error_remctl (b : Build) (evs : List GetoptRet) :
    ∀ (l : Locals) (r : Run), optionLoop b l evs = .error r → remctlCalls r.trace = [] := by
  induction evs with
  | nil => intro l r h; simp [optionLoop] at h
  | cons e evs ih =>
    intro l r h
    cases e with
    | withArg c a =>
      simp only [optionLoop] at h
      split_ifs at h
      all_goals first
        | exact ih _ _ h
        | (cases h; first | exact remctlCalls_die _ | exact remctlCalls_usage _ _)
    | flag c =>
      simp only [optionLoop] at h
      split_ifs at h <;> cases h
      · exact remctlCalls_usage _ _
      · rfl
      · exact remctlCalls_usage _ _
    | unknown c =>
      simp only [optionLoop] at h
      cases h
      simp [Run.after, remctlCalls, isRemctl, usage]
    | missing c =>
      simp only [optionLoop] at h
      cases h
      simp [Run.after, remctlCalls, isRemctl, usage]

/-- The loop steps over an option that passes. -/
theorem optionLoop_cons_passes (b : Build) (l : Locals) (e : GetoptRet) (h : passes e) :
    ∃ l1, ∀ rest, optionLoop b l (e :: rest) = optionLoop b l1 rest := by
  cases e with
  | withArg c a =>
    simp only [passes] at h
    rcases h with h | h | h | h | h | ⟨h, hp⟩ <;> subst h
    · exact ⟨{ l with type := a }, fun rest => by simp [optionLoop]⟩
    · exact ⟨{ l with file := some a }, fun rest => by simp [optionLoop]⟩
    · exact ⟨{ l with principal := some a }, fun rest => by simp [optionLoop]⟩
    · exact ⟨{ l with srvtab := some a }, fun rest => by simp [optionLoop]⟩
    · exact ⟨{ l with server := a }, fun rest => by simp [optionLoop]⟩
    · refine ⟨{ l with port := ((strtol a.data).1 % 65536).toNat }, fun rest => ?_⟩
      simp only [badPort] at hp
      simp only [optionLoop]
      rw [if_pos True.intro]
      exact if_neg hp
  | flag c => exact absurd h (by simp [passes])
  | unknown c => exact absurd h (by simp [passes])
  | missing c => exact absurd h (by simp [passes])

/-- The loop steps over a run of options that pass. -/
theorem optionLoop_append_passes (b : Build) (pre : List GetoptRet) :
    ∀ (l : Locals), (∀ e ∈ pre, passes e) →
      ∃ l1, ∀ rest, optionLoop b l (pre ++ rest) = optionLoop b l1 rest := by
  induction pre with
  | nil => intro l _; exact ⟨l, fun rest => rfl⟩
  | cons e pre ih =>
    intro l h
    obtain ⟨l1, h1⟩ := optionLoop_cons_passes b l e (h e (List.mem_cons_self _ _))
    obtain ⟨l2, h2⟩ := ih l1 (fun x hx => h x (List.mem_cons_of_mem _ hx))
    exact ⟨l2, fun rest => by rw [List.cons_append, h1, h2]⟩

/-- The loop finishes exactly when every option passes. -/
theorem optionLoop_ok_of_passes (b : Build) (evs : List GetoptRet) (l : Locals)
    (h : ∀ e ∈ evs, passes e) : ∃ l1, optionLoop b l evs = .ok l1 := by
  obtain ⟨l1, h1⟩ := optionLoop_append_passes b evs l h
  refine ⟨l1, ?_⟩
  have := h1 []
  simpa [optionLoop] using this

/-- An option that does not pass ends the process inside the loop. -/
theorem optionLoop_error_of_not_passes (b : Build) (evs : List GetoptRet) :
    ∀ (l : Locals), (∃ e ∈ evs, ¬ passes e) → ∃ r, optionLoop b l evs = .error r := by
  induction evs with
  | nil => intro l h; simp at h
  | cons e evs ih =>
    intro l h
    by_cases he : passes e
    · obtain ⟨l1, h1⟩ := optionLoop_cons_passes b l e he
      rw [h1]
      apply ih
      obtain ⟨x, hx, hnx⟩ := h
      rcases List.mem_cons.1 hx with rfl | hx
      · exact absurd he hnx
      · exact ⟨x, hx, hnx⟩
    · cases e with
      | withArg c a =>
        simp only [passes, not_or, not_and, not_not] at he
        obtain ⟨h1, h2, h3, h4, h5, h6⟩ := he
        simp only [optionLoop, if_neg h1, if_neg h2, if_neg h3, if_neg h4, if_neg h5]
        by_cases hp : c = 'p'
        · have hb := h6 hp
          simp only [badPort] at hb
          rw [if_pos hp, if_pos hb]
          exact ⟨_, rfl⟩
        · rw [if_neg hp]
          exact ⟨_, rfl⟩
      | flag c =>
        simp only [optionLoop]
        split_ifs <;> exact ⟨_, rfl⟩
      | unknown c => exact ⟨_, rfl⟩
      | missing c => exact ⟨_, rfl⟩

theorem lastArg_isSome_of_mem (c : Char) (a : String) (evs : List GetoptRet)
    (h : GetoptRet.withArg c a ∈ evs) : (lastArg c evs).isSome = true := by
  induction evs with
  | nil => simp at h
  | cons e evs ih =>
    rcases List.mem_cons.1 h with rfl | h
    · cases hl : lastArg c evs <;> simp [lastArg, hl]
    · have := ih h
      cases e <;> simp_all [lastArg, Option.isSome_iff_exists]

theorem lastArg_none_of_not_mem (c : Char) (evs : List GetoptRet)
    (h : ∀ a, GetoptRet.withArg c a ∉ evs) : lastArg c evs = none := by
  induction evs with
  | nil => rfl
  | cons e evs ih =>
    have ih1 := ih (fun a ha => h a (List.mem_cons_of_mem _ ha))
    cases e with
    | withArg c1 a1 =>
      have hne : c1 ≠ c := by
        rintro rfl
        exact h a1 (List.mem_cons_self _ _)
      simp [lastArg, ih1, hne]
    | flag c1 => simpa [lastArg] using ih1
    | unknown c1 => simpa [lastArg] using ih1
    | missing c1 => simpa [lastArg] using ih1

/-- The locals at the end of a loop that finishes: each holds the argument of
the last option that sets it, or its initial value. -/
theorem optionLoop_ok_locals (b : Build) (evs : List GetoptRet) :
    ∀ (l l1 : Locals), optionLoop b l evs = .ok l1 →
      l1.type = (lastArg 'c' evs).getD l.type ∧
      l1.server = (lastArg 's' evs).getD l.server ∧
      l1.principal = (lastArg 'k' evs).or l.principal ∧
      l1.file = (lastArg 'f' evs).or l.file ∧
      l1.srvtab = (lastArg 'S' evs).or l.srvtab ∧
      l1.port = ((lastArg 'p' evs).map fun a => (strtol a.data).1.toNat).getD l.port := by
  induction evs with
  | nil =>
    intro l l1 h
    simp only [optionLoop, Except.ok.injEq] at h
    subst h
    simp [lastArg]
  | cons e evs ih =>
    intro l l1 h
    cases e with
    | withArg c a =>
      simp only [optionLoop] at h
      split_ifs at h with h1 h2 h3 h4 h5 h6 h7
      · subst h1
        obtain ⟨i1, i2, i3, i4, i5, i6⟩ := ih _ _ h
        simp only [lastArg] at *
        refine ⟨?_, by simpa using i2, by simpa using i3, by simpa using i4,
          by simpa using i5, by simpa using i6⟩
        cases hl : lastArg 'c' evs <;> simp_all
      · subst h2
        obtain ⟨i1, i2, i3, i4, i5, i6⟩ := ih _ _ h
        simp only [lastArg] at *
        refine ⟨by simpa using i1, by simpa using i2, by simpa using i3, ?_,
          by simpa using i5, by simpa using i6⟩
        cases hl : lastArg 'f' evs <;> simp_all
      · subst h3
        obtain ⟨i1, i2, i3, i4, i5, i6⟩ := ih _ _ h
        simp only [lastArg] at *
        refine ⟨by simpa using i1, by simpa using i2, ?_, by simpa using i4,
          by simpa using i5, by simpa using i6⟩
        cases hl : lastArg 'k' evs <;> simp_all
      · subst h4
        obtain ⟨i1, i2, i3, i4, i5, i6⟩ := ih _ _ h
        simp only [lastArg] at *
        have hlo : 0 ≤ (strtol a.data).1 := by
          by_contra hc
          exact h5 (Or.inl (by omega))
        have hhi : (strtol a.data).1 < 65536 := by
          by_contra hc
          exact h5 (Or.inr (Or.inl (by omega)))
        rw [Int.emod_eq_of_lt hlo hhi] at i6
        refine ⟨by simpa using i1, by simpa using i2, by simpa using i3,
          by simpa using i4, by simpa using i5, ?_⟩
        cases hl : lastArg 'p' evs <;> simp_all
      · subst h6
        obtain ⟨i1, i2, i3, i4, i5, i6⟩ := ih _ _ h
        simp only [lastArg] at *
        refine ⟨by simpa using i1, by simpa using i2, by simpa using i3,
          by simpa using i4, ?_, by simpa using i6⟩
        cases hl : lastArg 'S' evs <;> simp_all
      · subst h7
        obtain ⟨i1, i2, i3, i4, i5, i6⟩ := ih _ _ h
        simp only [lastArg] at *
        refine ⟨by simpa using i1, ?_, by simpa using i3,
          by simpa using i4, by simpa using i5, by simpa using i6⟩
        cases hl : lastArg 's' evs <;> simp_all
    | flag c =>
      simp only [optionLoop] at h
      split_ifs at h
    | unknown c => simp [optionLoop] at h
    | missing c => simp [optionLoop] at h

theorem fatalRun_die (m : String) : fatalRun (die m) := by
  simp [fatalRun, die, isStderr]

theorem fatalRun_usage (b : Build) : fatalRun (usage b 1) := by
  simp [fatalRun, usage, isStderr]

/-- Without `-h` and `-v`, a run that ends inside the option loop is a fatal
local error. -/
theorem optionLoop_error_fatal (b : Build) (evs : List GetoptRet) :
    ∀ (l : Locals) (r : Run), optionLoop b l evs = .error r →
      GetoptRet.flag 'h' ∉ evs → GetoptRet.flag 'v' ∉ evs → fatalRun r := by
  induction evs with
  | nil => intro l r h; simp [optionLoop] at h
  | cons e evs ih =>
    intro l r h hh hv
    have hh1 : GetoptRet.flag 'h' ∉ evs := fun hm => hh (List.mem_cons_of_mem _ hm)
    have hv1 : GetoptRet.flag 'v' ∉ evs := fun hm => hv (List.mem_cons_of_mem _ hm)
    cases e with
    | withArg c a =>
      simp only [optionLoop] at h
      split_ifs at h
      all_goals first
        | exact ih _ _ h hh1 hv1
        | (cases h; first | exact fatalRun_die _ | exact fatalRun_usage _)
    | flag c =>
      simp only [optionLoop] at h
      split_ifs at h with h1 h2
      · subst h1
        exact absurd (List.mem_cons_self _ _) hh
      · subst h2
        exact absurd (List.mem_cons_self _ _) hv
      · cases h
        exact fatalRun_usage _
    | unknown c =>
      simp only [optionLoop] at h
      cases h
      simp [fatalRun, Run.after, usage, isStderr]
    | missing c =>
      simp only [optionLoop] at h
      cases h
      simp [fatalRun, Run.after, usage, isStderr]

/-- Without `-h`, `-v` and a bad port, a run that ends inside the option loop
is the usage error, behind the diagnostic of `getopt` when it wrote one. -/
theorem optionLoop_error_usage (b : Build) (evs : List GetoptRet) :
    ∀ (l : Locals) (r : Run), optionLoop b l evs = .error r →
      (∀ e ∈ evs, e ≠ GetoptRet.flag 'h' ∧ e ≠ GetoptRet.flag 'v' ∧
        ∀ v, e = GetoptRet.withArg 'p' v → ¬ badPort v) →
      r = ⟨[.stderrText (usage_message b)], 1⟩ ∨
      ∃ c, r = ⟨[.getoptDiag c, .stderrText (usage_message b)], 1⟩ := by
  induction evs with
  | nil => intro l r h; simp [optionLoop] at h
  | cons e evs ih =>
    intro l r h hno
    have hno1 := fun x hx => hno x (List.mem_cons_of_mem _ hx)
    obtain ⟨hh, hv, hp⟩ := hno e (List.mem_cons_self _ _)
    cases e with
    | withArg c a =>
      simp only [optionLoop] at h
      split_ifs at h with h1 h2 h3 h4 h5
      · exact ih _ _ h hno1
      · exact ih _ _ h hno1
      · exact ih _ _ h hno1
      · subst h4
        exact absurd h5 (hp a rfl)
      · exact ih _ _ h hno1
      · exact ih _ _ h hno1
      · exact ih _ _ h hno1
      · cases h
        left
        simp [usage]
    | flag c =>
      simp only [optionLoop] at h
      split_ifs at h with h1 h2
      · subst h1
        exact absurd rfl hh
      · subst h2
        exact absurd rfl hv
      · cases h
        left
        simp [usage]
    | unknown c =>
      simp only [optionLoop] at h
      cases h
      exact Or.inr ⟨c, by simp [Run.after, usage]⟩
    | missing c =>
      simp only [optionLoop] at h
      cases h
      exact Or.inr ⟨c, by simp [Run.after, usage]⟩

/-- The loop reaches a `-h` or `-v` behind options that pass or are
themselves `-h` or `-v`, and ends with exit code 0 and one text on standard
output. -/
theorem optionLoop_help_version (b : Build) (c : Char) (hc : c = 'h' ∨ c = 'v')
    (post : List GetoptRet) :
    ∀ (pre : List GetoptRet) (l : Locals),
      (∀ e ∈ pre, passes e ∨ e = GetoptRet.flag 'h' ∨ e = GetoptRet.flag 'v') →
      ∃ m, optionLoop b l (pre ++ GetoptRet.flag c :: post) = .error ⟨[.stdoutText m], 0⟩ := by
  intro pre
  induction pre with
  | nil =>
    intro l _
    rcases hc with rfl | rfl
    · exact ⟨usage_message b, by simp [optionLoop, usage]⟩
    · exact ⟨b.PACKAGE_STRING ++ "\n", by simp [optionLoop]⟩
  | cons e pre ih =>
    intro l h
    have h1 := fun x hx => h x (List.mem_cons_of_mem _ hx)
    rcases h e (List.mem_cons_self _ _) with hp | rfl | rfl
    · obtain ⟨l1, hl1⟩ := optionLoop_cons_passes b l e hp
      rw [List.cons_append, hl1]
      exact ih l1 h1
    · exact ⟨usage_message b, by simp [optionLoop, usage]⟩
    · exact ⟨b.PACKAGE_STRING ++ "\n", by simp [optionLoop]⟩

/-! ## The port check -/

theorem isdigit_not_space (c : Char) (h : isdigit c = true) :
    isspace c = false ∧ c ≠ '-' ∧ c ≠ '+' := by
  simp only [isdigit, Bool.and_eq_true, decide_eq_true_eq] at h
  have h48 : '0'.toNat = 48 := by decide
  have h57 : '9'.toNat = 57 := by decide
  rw [h48, h57] at h
  refine ⟨?_, ?_, ?_⟩
  · simp only [isspace, Bool.or_eq_false_iff, decide_eq_false_iff_not]
    refine ⟨⟨⟨⟨⟨?_, ?_⟩, ?_⟩, ?_⟩, ?_⟩, ?_⟩ <;>
      (rintro rfl; revert h; decide)
  · rintro rfl; revert h; decide
  · rintro rfl; revert h; decide

/-- On a value made of digits only, the port check rejects exactly zero and
the numbers above 65535, however long the run of digits is. -/
theorem badPort_digits (ds : List Char) (hne : ds ≠ [])
    (hd : ∀ c ∈ ds, isdigit c = true) :
    badPort (String.mk ds) ↔ digitsValue ds = 0 ∨ 65535 < digitsValue ds := by
  obtain ⟨c, cs, rfl⟩ := List.exists_cons_of_ne_nil hne
  obtain ⟨hs, hm, hp⟩ := isdigit_not_space c (hd c (List.mem_cons_self _ _))
  have htake : (c :: cs).takeWhile isdigit = c :: cs := by
    rw [List.takeWhile_eq_self_iff]
    exact hd
  have hdrop : (c :: cs).dropWhile isdigit = [] := by
    rw [List.dropWhile_eq_nil_iff]
    exact hd
  have hsp : (c :: cs).dropWhile isspace = c :: cs := by
    simp [List.dropWhile, hs]
  have hst : strtol (c :: cs) =
      (max LONG_MIN (min LONG_MAX (digitsValue (c :: cs) : Int)), []) := by
    unfold strtol
    simp only [hsp, List.head?_cons, Option.some.injEq, hm, hp, or_self, if_false, htake,
      hdrop]
    simp
  simp only [badPort, hst, ne_eq, not_true_eq_false, or_false]
  generalize digitsValue (c :: cs) = n
  simp only [LONG_MIN, LONG_MAX]
  omega

/-! ## The resolver -/

/-- A process that ends inside the option loop is the whole run. -/
theorem main_of_loop_error (permute : Bool) (b : Build) (w : World) (args : List String)
    (r : Run) (h : optionLoop b (Locals.init b) (options permute args) = .error r) :
    main permute b w args = r := by
  unfold options at h
  simp [main, resolve, h]

/-- A run whose options hold one that does not pass ends inside the loop. -/
theorem main_of_not_passes (permute : Bool) (b : Build) (w : World) (args : List String)
    (hex : ¬ ∀ e ∈ options permute args, passes e) :
    ∃ r, optionLoop b (Locals.init b) (options permute args) = .error r ∧
      main permute b w args = r := by
  have hex1 : ∃ e ∈ options permute args, ¬ passes e := by
    by_contra hc
    apply hex
    intro e he
    by_contra hp
    exact hc ⟨e, he, hp⟩
  obtain ⟨r, hr⟩ := optionLoop_error_of_not_passes b (options permute args) (Locals.init b) hex1
  exact ⟨r, hr, main_of_loop_error permute b w args r hr⟩

/-- A run whose options hold one that does not pass makes no remote call. -/
theorem no_call_of_not_passes (permute : Bool) (b : Build) (w : World) (args : List String)
    (hex : ¬ ∀ e ∈ options permute args, passes e) :
    remctlCalls (main permute b w args).trace = [] := by
  obtain ⟨r, hr, hmain⟩ := main_of_not_passes permute b w args hex
  rw [hmain]
  exact optionLoop_error_remctl b _ _ r hr

/-- Without `-h` and `-v`, a run whose options hold one that does not pass is
a fatal local error. -/
theorem fatal_of_not_passes (permute : Bool) (b : Build) (w : World) (args : List String)
    (hex : ¬ ∀ e ∈ options permute args, passes e)
    (hh : GetoptRet.flag 'h' ∉ options permute args)
    (hv : GetoptRet.flag 'v' ∉ options permute args) :
    fatalRun (main permute b w args) := by
  obtain ⟨r, hr, hmain⟩ := main_of_not_passes permute b w args hex
  rw [hmain]
  exact optionLoop_error_fatal b _ _ r hr hh hv

/-- The run is decided by the first option that does not pass. -/
theorem main_of_first_not_passes (permute : Bool) (b : Build) (w : World)
    (args : List String) (pre post : List GetoptRet) (e : GetoptRet)
    (hsplit : options permute args = pre ++ e :: post) (hpre : ∀ x ∈ pre, passes x)
    (r : Run) (hr : ∀ l, optionLoop b l (e :: post) = .error r) :
    main permute b w args = r := by
  obtain ⟨l1, h1⟩ := optionLoop_append_passes b pre (Locals.init b) hpre
  apply main_of_loop_error
  rw [hsplit, h1, hr]

/-- The resolver after a loop in which every option passes. -/
theorem resolve_of_passes (permute : Bool) (b : Build) (args : List String)
    (hpass : ∀ e ∈ options permute args, passes e) :
    ∃ l, optionLoop b (Locals.init b) (options permute args) = .ok l ∧
      l.file = lastArg 'f' (options permute args) ∧
      l.srvtab = lastArg 'S' (options permute args) := by
  obtain ⟨l, hl⟩ := optionLoop_ok_of_passes b (options permute args) (Locals.init b) hpass
  obtain ⟨-, -, -, h4, h5, -⟩ := optionLoop_ok_locals b _ _ _ hl
  exact ⟨l, hl, by simpa [Locals.init] using h4, by simpa [Locals.init] using h5⟩

/-- With fewer than 3 words behind options that all pass, the run is the
usage error. -/
theorem main_too_few (permute : Bool) (b : Build) (w : World) (args : List String)
    (hpass : ∀ e ∈ options permute args, passes e)
    (hlen : (words permute args).length < 3) :
    main permute b w args = ⟨[.stderrText (usage_message b)], 1⟩ := by
  obtain ⟨l, hl, -, -⟩ := resolve_of_passes permute b args hpass
  unfold options at hl
  unfold words at hlen
  simp [main, resolve, hl, hlen, usage]

/-- With `-f` and a first word other than `get` behind options that all pass,
the run is a fatal diagnostic. -/
theorem main_file_not_get (permute : Bool) (b : Build) (w : World)
    (args : List String) (f : String)
    (hpass : ∀ e ∈ options permute args, passes e)
    (hf : GetoptRet.withArg 'f' f ∈ options permute args)
    (hw : (words permute args).head? ≠ some "get") :
    main permute b w args =
      ⟨[.stderrText (if (words permute args).length < 3 then usage_message b
          else "wallet: -f only supported for get\n")], 1⟩ := by
  obtain ⟨l, hl, hfile, -⟩ := resolve_of_passes permute b args hpass
  have hsome := lastArg_isSome_of_mem 'f' f _ hf
  rw [← hfile] at hsome
  unfold options at hl
  unfold words at hw ⊢
  by_cases hlen : (getoptScan permute optstring false args).2.length < 3
  · simp [main, resolve, hl, hlen, usage]
  · have h0 : (getoptScan permute optstring false args).2[0]? ≠ some "get" := by
      rw [← List.head?_eq_getElem?]
      exact hw
    have hne : l.file ≠ none := by
      intro hn
      simp [hn] at hsome
    simp [main, resolve, hl, hlen, h0, hne, die]

/-- With `-S` and either words that do not begin with `get`, `keytab` or no
`-f`, behind options that all pass, the run is a fatal diagnostic. -/
theorem main_srvtab_illegal (permute : Bool) (b : Build) (w : World)
    (args : List String) (s : String)
    (hpass : ∀ e ∈ options permute args, passes e)
    (hS : GetoptRet.withArg 'S' s ∈ options permute args)
    (h : (words permute args).take 2 ≠ ["get", "keytab"] ∨
      ∀ f, GetoptRet.withArg 'f' f ∉ options permute args) :
    ∃ m ∈ [usage_message b, "wallet: -f only supported for get\n",
        "wallet: -S only supported for get keytab\n",
        "wallet: -S option requires -f also be used\n"],
      main permute b w args = ⟨[.stderrText m], 1⟩ := by
  obtain ⟨l, hl, hfile, hsrv⟩ := resolve_of_passes permute b args hpass
  have hsome := lastArg_isSome_of_mem 'S' s _ hS
  rw [← hsrv] at hsome
  have hne : l.srvtab ≠ none := by
    intro hn
    simp [hn] at hsome
  have hnof : (∀ f, GetoptRet.withArg 'f' f ∉ options permute args) → l.file = none := by
    intro hno
    rw [hfile]
    exact lastArg_none_of_not_mem 'f' _ hno
  unfold options at hl
  unfold words at h
  by_cases hlen : (getoptScan permute optstring false args).2.length < 3
  · exact ⟨usage_message b, by simp, by simp [main, resolve, hl, hlen, usage]⟩
  · by_cases hf : l.file ≠ none ∧ (getoptScan permute optstring false args).2[0]? ≠ some "get"
    · exact ⟨"wallet: -f only supported for get\n", by simp,
        by simp [main, resolve, hl, hlen, hf, die]⟩
    · by_cases hgk : (getoptScan permute optstring false args).2[0]? ≠ some "get" ∨
          (getoptScan permute optstring false args).2[1]? ≠ some "keytab"
      · refine ⟨"wallet: -S only supported for get keytab\n", by simp, ?_⟩
        simp only [main, resolve, hl, if_neg hlen, if_neg hf, if_pos hne, if_pos hgk]
        rfl
      · have hfn : l.file = none := by
          rcases h with h | h
          · exfalso
            apply h
            simp only [not_or, not_not] at hgk
            generalize (getoptScan permute optstring false args).2 = ws at hgk hlen
            rcases ws with _ | ⟨a, _ | ⟨a1, ws⟩⟩
            · simp at hlen
            · simp at hlen
            · simp at hgk
              simp [hgk.1, hgk.2]
          · exact hnof h
        refine ⟨"wallet: -S option requires -f also be used\n", by simp, ?_⟩
        simp only [main, resolve, hl, if_neg hlen, if_neg hf, if_pos hne, if_neg hgk,
          if_pos hfn]
        rfl

/-! ## The claims on the resolver -/

/-- C1 (amended).  A `-p` option with a bad port value (one that parses to an
integer outside (0, 65535] or leaves characters unparsed) among the options of
a command line keeps the run from making the remote call; without `-h` and
`-v` among the options the run is a fatal error (exit code 1, diagnostic on
standard error); and when every option before that `-p` passes, the run is
exactly `wallet: invalid port number <value>` on standard error and exit
code 1. -/
theorem invalid_port_is_fatal (permute : Bool) (b : Build) (w : World) (args : List String)
    (v : String) (hmem : GetoptRet.withArg 'p' v ∈ options permute args)
    (hbad : badPort v) :
    remctlCalls (main permute b w args).trace = [] ∧
    (GetoptRet.flag 'h' ∉ options permute args → GetoptRet.flag 'v' ∉ options permute args →
      fatalRun (main permute b w args)) ∧
    ∀ pre post, options permute args = pre ++ GetoptRet.withArg 'p' v :: post →
      (∀ e ∈ pre, passes e) →
      main permute b w args =
        ⟨[.stderrText ("wallet: invalid port number " ++ v ++ "\n")], 1⟩ := by
  have hex : ¬ ∀ e ∈ options permute args, passes e := by
    intro hall
    have := hall _ hmem
    simp [passes, hbad] at this
  refine ⟨no_call_of_not_passes permute b w args hex,
    fatal_of_not_passes permute b w args hex, ?_⟩
  intro pre post hsplit hpre
  apply main_of_first_not_passes permute b w args pre post _ hsplit hpre
  intro l
  simp only [badPort] at hbad
  simp only [optionLoop]
  rw [if_pos True.intro, if_pos hbad]
  rfl

/-- C2 (amended).  When `-S` is among the options and either the positional
words do not begin with `get`, `keytab` or no `-f` is among the options
(before or after the `-S`), the run makes no remote call; without `-h` and
`-v` among the options it is a fatal error (exit code 1, diagnostic on
standard error); and when every option passes, the diagnostic is the usage
message or one of the three messages on `-f` and `-S`. -/
theorem srvtab_option_requires_get_keytab_and_file (permute : Bool) (b : Build) (w : World)
    (args : List String) (s : String)
    (hS : GetoptRet.withArg 'S' s ∈ options permute args)
    (h : (words permute args).take 2 ≠ ["get", "keytab"] ∨
      ∀ f, GetoptRet.withArg 'f' f ∉ options permute args) :
    remctlCalls (main permute b w args).trace = [] ∧
    (GetoptRet.flag 'h' ∉ options permute args → GetoptRet.flag 'v' ∉ options permute args →
      fatalRun (main permute b w args)) ∧
    ((∀ e ∈ options permute args, passes e) →
      ∃ m ∈ [usage_message b, "wallet: -f only supported for get\n",
          "wallet: -S only supported for get keytab\n",
          "wallet: -S option requires -f also be used\n"],
        main permute b w args = ⟨[.stderrText m], 1⟩) := by
  by_cases hall : ∀ e ∈ options permute args, passes e
  · obtain ⟨m, hm, hmain⟩ := main_srvtab_illegal permute b w args s hall hS h
    rw [hmain]
    refine ⟨rfl, fun _ _ => ?_, fun _ => ⟨m, hm, rfl⟩⟩
    simp [fatalRun, isStderr]
  · exact ⟨no_call_of_not_passes permute b w args hall,
      fatal_of_not_passes permute b w args hall, fun hp => absurd hp hall⟩

/-- C3 (amended).  When `-f` is among the options and the first positional
word is not `get`, the run makes no remote call; without `-h` and `-v` among
the options it is a fatal error (exit code 1, diagnostic on standard error);
and when every option passes, the diagnostic is the usage message for fewer
than 3 words and `wallet: -f only supported for get` otherwise. -/
theorem file_option_requires_get (permute : Bool) (b : Build) (w : World)
    (args : List String) (f : String)
    (hf : GetoptRet.withArg 'f' f ∈ options permute args)
    (hw : (words permute args).head? ≠ some "get") :
    remctlCalls (main permute b w args).trace = [] ∧
    (GetoptRet.flag 'h' ∉ options permute args → GetoptRet.flag 'v' ∉ options permute args →
      fatalRun (main permute b w args)) ∧
    ((∀ e ∈ options permute args, passes e) →
      main permute b w args =
        ⟨[.stderrText (if (words permute args).length < 3 then usage_message b
            else "wallet: -f only supported for get\n")], 1⟩) := by
  by_cases hall : ∀ e ∈ options permute args, passes e
  · have hmain := main_file_not_get permute b w args f hall hf hw
    rw [hmain]
    refine ⟨rfl, fun _ _ => ?_, fun _ => rfl⟩
    simp [fatalRun, isStderr]
  · exact ⟨no_call_of_not_passes permute b w args hall,
      fatal_of_not_passes permute b w args hall, fun hp => absurd hp hall⟩

/-- C4 (amended).  When fewer than 3 positional words are left, the run makes
no remote call; and when no `-h`, no `-v` and no `-p` with a bad port is among
the options, the usage message is printed on standard error (behind the
diagnostic of `getopt` for an unknown option or a missing argument) and the
exit code is 1. -/
theorem too_few_words_usage (permute : Bool) (b : Build) (w : World) (args : List String)
    (hlen : (words permute args).length < 3) :
    remctlCalls (main permute b w args).trace = [] ∧
    ((∀ e ∈ options permute args, e ≠ GetoptRet.flag 'h' ∧ e ≠ GetoptRet.flag 'v' ∧
        ∀ v, e = GetoptRet.withArg 'p' v → ¬ badPort v) →
      main permute b w args = ⟨[.stderrText (usage_message b)], 1⟩ ∨
      ∃ c, main permute b w args =
        ⟨[.getoptDiag c, .stderrText (usage_message b)], 1⟩) := by
  by_cases hall : ∀ e ∈ options permute args, passes e
  · have hmain := main_too_few permute b w args hall hlen
    rw [hmain]
    exact ⟨rfl, fun _ => Or.inl rfl⟩
  · refine ⟨no_call_of_not_passes permute b w args hall, fun hno => ?_⟩
    obtain ⟨r, hr, hmain⟩ := main_of_not_passes permute b w args hall
    rw [hmain]
    exact optionLoop_error_usage b _ _ r hr hno

/-- C5 (amended).  A `-h` or `-v` among the options of a command line keeps
the run from making the remote call; when every option before it passes or is
itself `-h` or `-v` (none is unknown, without its argument or a bad port), the
exit code is 0 and the run is one text on standard output; when every option
before it passes, that text is the usage message for `-h` and the version line
for `-v`. -/
theorem help_or_version_exits_zero (permute : Bool) (b : Build) (w : World)
    (args : List String) (c : Char) (hc : c = 'h' ∨ c = 'v')
    (hmem : GetoptRet.flag c ∈ options permute args) :
    remctlCalls (main permute b w args).trace = [] ∧
    ∀ pre post, options permute args = pre ++ GetoptRet.flag c :: post →
      ((∀ e ∈ pre, passes e ∨ e = GetoptRet.flag 'h' ∨ e = GetoptRet.flag 'v') →
        (main permute b w args).code = 0 ∧
        ∃ m, (main permute b w args).trace = [.stdoutText m]) ∧
      ((∀ e ∈ pre, passes e) →
        main permute b w args =
          ⟨[.stdoutText (if c = 'h' then usage_message b else b.PACKAGE_STRING ++ "\n")],
            0⟩) := by
  have hex : ¬ ∀ e ∈ options permute args, passes e := by
    intro hall
    have := hall _ hmem
    simp [passes] at this
  refine ⟨no_call_of_not_passes permute b w args hex, ?_⟩
  intro pre post hsplit
  constructor
  · intro hpre
    obtain ⟨m, hm⟩ := optionLoop_help_version b c hc post pre (Locals.init b) hpre
    rw [← hsplit] at hm
    rw [main_of_loop_error permute b w args _ hm]
    exact ⟨rfl, m, rfl⟩
  · intro hpre
    apply main_of_first_not_passes permute b w args pre post _ hsplit hpre
    intro l
    rcases hc with rfl | rfl
    · simp [optionLoop, usage]
    · simp [optionLoop]

/-! ## The dispatcher -/

/-- What an accepted command line satisfies. -/
theorem resolve_ok (permute : Bool) (b : Build) (args : List String) (l : Locals)
    (argv : List String) (hacc : resolve permute b args = .ok (l, argv)) :
    optionLoop b (Locals.init b) (options permute args) = .ok l ∧
    argv = words permute args ∧ 3 ≤ argv.length ∧
    (l.file ≠ none → argv[0]? = some "get") ∧
    (l.srvtab ≠ none → argv[0]? = some "get" ∧ argv[1]? = some "keytab" ∧ l.file ≠ none) := by
  unfold resolve at hacc
  unfold options words
  generalize getoptScan permute optstring false args = s at hacc ⊢
  cases hloop : optionLoop b (Locals.init b) s.1 with
  | error r => simp [hloop] at hacc
  | ok l1 =>
    simp only [hloop] at hacc
    split_ifs at hacc with h1 h2 h3 h4 h5
    · simp only [Except.ok.injEq, Prod.mk.injEq] at hacc
      obtain ⟨rfl, rfl⟩ := hacc
      refine ⟨rfl, rfl, by omega, ?_, ?_⟩
      · intro hf
        by_contra hc
        exact h2 ⟨hf, hc⟩
      · intro _
        simp only [not_or, not_not] at h4
        exact ⟨h4.1, h4.2, h5⟩
    · simp only [Except.ok.injEq, Prod.mk.injEq] at hacc
      obtain ⟨rfl, rfl⟩ := hacc
      refine ⟨rfl, rfl, by omega, ?_, ?_⟩
      · intro hf
        by_contra hc
        exact h2 ⟨hf, hc⟩
      · intro hs
        exact absurd hs h3

/-- An accepted command line runs the dispatcher. -/
theorem main_of_resolve_ok (permute : Bool) (b : Build) (w : World) (args : List String)
    (l : Locals) (argv : List String) (hacc : resolve permute b args = .ok (l, argv)) :
    main permute b w args = dispatch w l argv := by
  simp [main, hacc]

/-- The output-file branch makes no remote call and writes nothing to standard
output. -/
theorem writeFile_quiet (w : World) (l : Locals) (command : List String)
    (result : remctl_result) (file : String) :
    ∀ ev ∈ (writeFile w l command result file).trace,
      isRemctl ev = false ∧ isStdout ev = false := by
  unfold writeFile
  simp only
  split_ifs
  · simp [Run.after, sysdie, isRemctl, isStdout]
  · simp [Run.after, sysdie, isRemctl, isStdout]
  · simp [Run.after, die, isRemctl, isStdout]
  · simp [Run.after, sysdie, isRemctl, isStdout]
  · cases l.srvtab with
    | none => simp [isRemctl, isStdout]
    | some srvtab =>
      simp only
      cases w.freedSlot command 3 with
      | none => simp [Run.after, killedBy, isRemctl, isStdout]
      | some name =>
        simp only
        cases w.srvtabDies srvtab name file <;>
          simp [Run.after, die, isRemctl, isStdout]

/-- The dispatcher makes the remote call first and only once. -/
theorem dispatch_calls (w : World) (l : Locals) (argv : List String) :
    remctlCalls (dispatch w l argv).trace =
      [.remctl l.server l.port l.principal (l.type :: argv)] := by
  unfold dispatch
  simp only
  cases w.remctl l.server l.port l.principal (l.type :: argv) with
  | none => simp [Run.after, sysdie, remctlCalls, isRemctl]
  | some result =>
    simp only
    cases result.error with
    | some e => simp [Run.after, remctlCalls, isRemctl]
    | none =>
      simp only
      by_cases hs : result.stderr_buf.length > 0
      · rw [if_pos hs]
        simp [Run.after, remctlCalls, isRemctl]
      · rw [if_neg hs]
        cases l.file with
        | none => simp [Run.after, remctlCalls, isRemctl]
        | some file =>
          simp only
          cases w.freedSlot (l.type :: argv) 1 with
          | none => simp [Run.after, killedBy, remctlCalls, isRemctl]
          | some word =>
            simp only
            by_cases hg : word = "get"
            · rw [if_pos hg]
              have hq := writeFile_quiet w l (l.type :: argv) result file
              have hnil :
                  (writeFile w l (l.type :: argv) result file).trace.filter isRemctl = [] := by
                rw [List.filter_eq_nil_iff]
                intro ev hev
                simp [(hq ev hev).1]
              simp only [Run.after, remctlCalls, List.singleton_append]
              rw [List.filter_cons_of_pos (by rfl), hnil]
            · rw [if_neg hg]
              simp [Run.after, remctlCalls, isRemctl]

/-- C6.  For an accepted command line the remote call is made exactly once;
its command vector is the `-c` value (default `wallet`) followed by the
positional words in order (length n + 1); server, port and principal are the
resolved ones: the last `-s`, `-p`, `-k` values or the defaults, the principal
absent without `-k`. -/
theorem remote_call_made_once (permute : Bool) (b : Build) (w : World) (args : List String)
    (l : Locals) (argv : List String) (hacc : resolve permute b args = .ok (l, argv)) :
    remctlCalls (main permute b w args).trace =
      [.remctl l.server l.port l.principal (l.type :: words permute args)] ∧
    (l.type :: words permute args).length = (words permute args).length + 1 ∧
    l.type = (lastArg 'c' (options permute args)).getD "wallet" ∧
    l.server = (lastArg 's' (options permute args)).getD b.SERVER ∧
    l.port = ((lastArg 'p' (options permute args)).map
      fun a => (strtol a.data).1.toNat).getD b.PORT ∧
    l.principal = lastArg 'k' (options permute args) ∧
    ((∀ a, GetoptRet.withArg 'k' a ∉ options permute args) → l.principal = none) := by
  obtain ⟨hloop, hargv, -, -, -⟩ := resolve_ok permute b args l argv hacc
  obtain ⟨h1, h2, h3, -, -, h6⟩ := optionLoop_ok_locals b _ _ _ hloop
  have hk : l.principal = lastArg 'k' (options permute args) := by
    simpa [Locals.init] using h3
  rw [main_of_resolve_ok permute b w args l argv hacc, dispatch_calls, ← hargv]
  refine ⟨rfl, by simp, by simpa [Locals.init] using h1, by simpa [Locals.init] using h2,
    by simpa [Locals.init] using h6, hk, ?_⟩
  intro hno
  rw [hk]
  exact lastArg_none_of_not_mem 'k' _ hno

/-! ## The result of the remote call -/

/-- C8.  For an accepted command line and a returned result that reports a
remote failure, the run after the remote call is only the diagnostic on
standard error: `wallet: <error>` and a newline when `error` is set, whatever
the buffers and `-f`/`-S` are; otherwise, when `stderr_buf` is not empty,
`wallet: ` followed by the raw bytes.  Nothing goes to standard output, no
file is opened and the derived-file writer is not called. -/
theorem remote_failure_is_reported_only (permute : Bool) (b : Build) (w : World)
    (args : List String) (l : Locals) (argv : List String) (result : remctl_result)
    (hacc : resolve permute b args = .ok (l, argv))
    (hres : w.remctl l.server l.port l.principal (l.type :: argv) = some result)
    (hfail : result.error ≠ none ∨ result.stderr_buf ≠ []) :
    (∀ e, result.error = some e →
      main permute b w args =
        ⟨[.remctl l.server l.port l.principal (l.type :: argv),
          .stderrText ("wallet: " ++ e ++ "\n")], result.status⟩) ∧
    (result.error = none →
      main permute b w args =
        ⟨[.remctl l.server l.port l.principal (l.type :: argv),
          .stderrText "wallet: ", .stderrBytes result.stderr_buf], result.status⟩) ∧
    (∀ ev ∈ (main permute b w args).trace,
      isStdout ev = false ∧ isFileOp ev = false ∧ isSrvtab ev = false) := by
  rw [main_of_resolve_ok permute b w args l argv hacc]
  cases herr : result.error with
  | some e =>
    have hd : dispatch w l argv =
        ⟨[.remctl l.server l.port l.principal (l.type :: argv),
          .stderrText ("wallet: " ++ e ++ "\n")], result.status⟩ := by
      simp [dispatch, hres, herr, Run.after]
    rw [hd]
    refine ⟨?_, ?_, ?_⟩
    · intro e1 he1
      cases he1
      rfl
    · intro hn
      cases hn
    · intro ev hev
      simp only [List.mem_cons, List.mem_singleton, List.not_mem_nil, or_false] at hev
      rcases hev with rfl | rfl <;> exact ⟨rfl, rfl, rfl⟩
  | none =>
    have hdiag : result.stderr_buf ≠ [] := by
      rcases hfail with h | h
      · exact absurd herr h
      · exact h
    have hpos : result.stderr_buf.length > 0 := by
      cases hb : result.stderr_buf with
      | nil => exact absurd hb hdiag
      | cons x xs => simp
    have hd : dispatch w l argv =
        ⟨[.remctl l.server l.port l.principal (l.type :: argv),
          .stderrText "wallet: ", .stderrBytes result.stderr_buf], result.status⟩ := by
      simp [dispatch, hres, herr, hpos, Run.after]
    rw [hd]
    refine ⟨?_, ?_, ?_⟩
    · intro e1 he1
      cases he1
    · intro _
      rfl
    · intro ev hev
      simp only [List.mem_cons, List.mem_singleton, List.not_mem_nil, or_false] at hev
      rcases hev with rfl | rfl | rfl <;> exact ⟨rfl, rfl, rfl⟩

/-! ## The output-file branch when the freed vector still reads as filled in -/

/-- What the surviving vector gives at the two slots read after the free. -/
theorem vectorSurvives_slots (w : World) (l : Locals) (argv : List String)
    (hsurv : vectorSurvives w (l.type :: argv)) (hlen : 3 ≤ argv.length) :
    w.freedSlot (l.type :: argv) 1 = argv[0]? ∧
    w.freedSlot (l.type :: argv) 3 = some (argv.getD 2 "") := by
  obtain ⟨h1, h3⟩ := hsurv
  rcases argv with _ | ⟨a0, _ | ⟨a1, _ | ⟨a2, rest⟩⟩⟩
  · simp at hlen
  · simp at hlen
  · simp at hlen
  · exact ⟨by simpa using h1, by simpa using h3⟩

/-- The output-file branch when no system call fails. -/
theorem writeFile_success (w : World) (l : Locals) (command : List String)
    (result : remctl_result) (file : String) (ho : 0 ≤ w.openFd file)
    (hw : w.writeRet (w.openFd file) result.stdout_buf = (result.stdout_buf.length : Int))
    (hc : 0 ≤ w.closeRet (w.openFd file)) :
    writeFile w l command result file =
      match l.srvtab with
      | some srvtab =>
        match w.freedSlot command 3 with
        | none =>
          ⟨[.sysOpen file, .sysWrite file result.stdout_buf result.stdout_buf.length,
            .sysClose file, .killed SIGSEGV], 128 + (SIGSEGV : Int)⟩
        | some name =>
          match w.srvtabDies srvtab name file with
          | some m =>
            ⟨[.sysOpen file, .sysWrite file result.stdout_buf result.stdout_buf.length,
              .sysClose file, .write_srvtab srvtab name file,
              .stderrText ("wallet: " ++ m ++ "\n")], 1⟩
          | none =>
            ⟨[.sysOpen file, .sysWrite file result.stdout_buf result.stdout_buf.length,
              .sysClose file, .write_srvtab srvtab name file], result.status⟩
      | none =>
        ⟨[.sysOpen file, .sysWrite file result.stdout_buf result.stdout_buf.length,
          .sysClose file], result.status⟩ := by
  unfold writeFile
  simp only [hw]
  rw [if_neg (by omega), if_neg (by omega), if_neg (by simp), if_neg (by omega)]
  cases l.srvtab with
  | none => rfl
  | some srvtab =>
    simp only
    cases w.freedSlot command 3 with
    | none => rfl
    | some name =>
      simp only
      cases w.srvtabDies srvtab name file <;> rfl

/-- The dispatcher on the payload path of a request with `-f`, when the read
of `command[1]` finds `get`. -/
theorem dispatch_file (w : World) (l : Locals) (argv : List String) (result : remctl_result)
    (file : String)
    (hres : w.remctl l.server l.port l.principal (l.type :: argv) = some result)
    (herr : result.error = none) (hdiag : result.stderr_buf = [])
    (hfile : l.file = some file)
    (hget : w.freedSlot (l.type :: argv) 1 = some "get") :
    dispatch w l argv =
      Run.after [.remctl l.server l.port l.principal (l.type :: argv)]
        (writeFile w l (l.type :: argv) result file) := by
  unfold dispatch
  simp [hres, herr, hdiag, hfile, hget]

/-- The dispatcher on the payload path of a request with `-f`, when the read
of `command[1]` kills the process. -/
theorem dispatch_file_killed (w : World) (l : Locals) (argv : List String)
    (result : remctl_result) (file : String)
    (hres : w.remctl l.server l.port l.principal (l.type :: argv) = some result)
    (herr : result.error = none) (hdiag : result.stderr_buf = [])
    (hfile : l.file = some file)
    (hdead : w.freedSlot (l.type :: argv) 1 = none) :
    dispatch w l argv =
      ⟨[.remctl l.server l.port l.principal (l.type :: argv), .killed SIGSEGV],
        128 + (SIGSEGV : Int)⟩ := by
  unfold dispatch
  simp [hres, herr, hdiag, hfile, hdead, Run.after, killedBy]

/-- The dispatcher on the payload path of a request with `-f`, when the read
of `command[1]` finds something other than `get`: the payload goes to standard
output and no file is opened. -/
theorem dispatch_file_misrouted (w : World) (l : Locals) (argv : List String)
    (result : remctl_result) (file word : String)
    (hres : w.remctl l.server l.port l.principal (l.type :: argv) = some result)
    (herr : result.error = none) (hdiag : result.stderr_buf = [])
    (hfile : l.file = some file)
    (hword : w.freedSlot (l.type :: argv) 1 = some word) (hne : word ≠ "get") :
    dispatch w l argv =
      ⟨[.remctl l.server l.port l.principal (l.type :: argv),
        .stdoutBytes result.stdout_buf], result.status⟩ := by
  unfold dispatch
  simp [hres, herr, hdiag, hfile, hword, hne, Run.after]

/-- Without `-f` the freed vector is never read: on the payload path the run
after the remote call is the one `fwrite` of `stdout_buf` to standard output,
no file is opened, and the exit code is the result's status. -/
theorem payload_to_stdout_without_file (permute : Bool) (b : Build) (w : World)
    (args : List String) (l : Locals) (argv : List String) (result : remctl_result)
    (hacc : resolve permute b args = .ok (l, argv))
    (hres : w.remctl l.server l.port l.principal (l.type :: argv) = some result)
    (herr : result.error = none) (hdiag : result.stderr_buf = [])
    (hfile : l.file = none) :
    main permute b w args =
      ⟨[.remctl l.server l.port l.principal (l.type :: argv),
        .stdoutBytes result.stdout_buf], result.status⟩ := by
  rw [main_of_resolve_ok permute b w args l argv hacc]
  simp [dispatch, hres, herr, hdiag, hfile, Run.after]

/-- When the freed vector still reads as filled in, the process exits with the
result's status on the output-file path when no local step fails (`open`, the
full `write`, `close`, and the derived-file writer under `-S`), and with code
1 when one fails. -/
theorem exit_code_of_vector_survives (permute : Bool) (b : Build) (w : World)
    (args : List String) (l : Locals) (argv : List String) (result : remctl_result)
    (hacc : resolve permute b args = .ok (l, argv))
    (hres : w.remctl l.server l.port l.principal (l.type :: argv) = some result)
    (herr : result.error = none) (hdiag : result.stderr_buf = [])
    (hsurv : vectorSurvives w (l.type :: argv)) :
    (localSuccess w l argv result → (main permute b w args).code = result.status) ∧
    (¬ localSuccess w l argv result → (main permute b w args).code = 1) := by
  rw [main_of_resolve_ok permute b w args l argv hacc]
  obtain ⟨-, -, hlen, hget, -⟩ := resolve_ok permute b args l argv hacc
  obtain ⟨hs1, hs3⟩ := vectorSurvives_slots w l argv hsurv hlen
  cases hfile : l.file with
  | none =>
    refine ⟨fun _ => ?_, fun hnot => ?_⟩
    · simp [dispatch, hres, herr, hdiag, hfile, Run.after]
    · exact absurd (by simp [localSuccess, hfile]) hnot
  | some file =>
    have hg : w.freedSlot (l.type :: argv) 1 = some "get" := by
      rw [hs1]
      exact hget (by simp [hfile])
    rw [dispatch_file w l argv result file hres herr hdiag hfile hg]
    constructor
    · intro h
      simp only [localSuccess, hfile] at h
      obtain ⟨ho, hw, hc, hs⟩ := h
      rw [writeFile_success w l _ result file ho hw hc]
      cases hsrv : l.srvtab with
      | none => simp [Run.after]
      | some srvtab =>
        have hd : w.srvtabDies srvtab (argv.getD 2 "") file = none := by
          simpa only [hsrv] using hs
        simp only [Run.after, hs3, hd]
    · intro hnot
      by_cases ho : w.openFd file < 0
      · simp [writeFile, ho, Run.after, sysdie]
      · by_cases hneg : w.writeRet (w.openFd file) result.stdout_buf < 0
        · simp [writeFile, ho, hneg, Run.after, sysdie]
        · by_cases hw : w.writeRet (w.openFd file) result.stdout_buf =
              (result.stdout_buf.length : Int)
          · by_cases hc : w.closeRet (w.openFd file) < 0
            · have hlen0 : ¬ ((result.stdout_buf.length : Int) < 0) := by omega
              simp [writeFile, ho, hw, hc, hlen0, Run.after, sysdie]
            · rw [writeFile_success w l _ result file (by omega) hw (by omega)]
              cases hsrv : l.srvtab with
              | none =>
                exfalso
                apply hnot
                simp only [localSuccess, hfile, hsrv]
                exact ⟨by omega, hw, by omega, trivial⟩
              | some srvtab =>
                simp only [hs3]
                cases hd : w.srvtabDies srvtab (argv.getD 2 "") file with
                | some m => simp [Run.after]
                | none =>
                  exfalso
                  apply hnot
                  simp only [localSuccess, hfile, hsrv]
                  exact ⟨by omega, hw, by omega, hd⟩
          · simp [writeFile, ho, hneg, hw, Run.after, die]

/-- When the freed vector still reads as filled in, a request with `-f FILE`
on the payload path writes nothing to standard output, a failing `open` is
fatal, a `write` that returns anything but the full length is fatal, and a
`write` of the full length leaves in FILE exactly the bytes of `stdout_buf`. -/
theorem payload_of_vector_survives (permute : Bool) (b : Build) (w : World)
    (args : List String) (l : Locals) (argv : List String) (result : remctl_result)
    (file : String)
    (hacc : resolve permute b args = .ok (l, argv))
    (hres : w.remctl l.server l.port l.principal (l.type :: argv) = some result)
    (herr : result.error = none) (hdiag : result.stderr_buf = [])
    (hfile : l.file = some file)
    (hsurv : vectorSurvives w (l.type :: argv)) :
    argv[0]? = some "get" ∧
    (∀ ev ∈ (main permute b w args).trace, isStdout ev = false) ∧
    (w.openFd file < 0 →
      main permute b w args =
        ⟨[.remctl l.server l.port l.principal (l.type :: argv), .sysOpen file,
          .stderrText
            ("wallet: " ++ ("open of " ++ file ++ " failed") ++ ": " ++ w.strerror ++ "\n")],
          1⟩) ∧
    (0 ≤ w.openFd file →
      w.writeRet (w.openFd file) result.stdout_buf ≠ (result.stdout_buf.length : Int) →
      ∃ m, main permute b w args =
        ⟨[.remctl l.server l.port l.principal (l.type :: argv), .sysOpen file,
          .sysWrite file result.stdout_buf (w.writeRet (w.openFd file) result.stdout_buf),
          .stderrText m], 1⟩) ∧
    (0 ≤ w.openFd file →
      w.writeRet (w.openFd file) result.stdout_buf = (result.stdout_buf.length : Int) →
      fileBytes file (main permute b w args).trace = result.stdout_buf) := by
  rw [main_of_resolve_ok permute b w args l argv hacc]
  obtain ⟨-, -, hlen, hget, -⟩ := resolve_ok permute b args l argv hacc
  obtain ⟨hs1, hs3⟩ := vectorSurvives_slots w l argv hsurv hlen
  have hg0 := hget (by simp [hfile])
  have hg : w.freedSlot (l.type :: argv) 1 = some "get" := by
    rw [hs1]
    exact hg0
  rw [dispatch_file w l argv result file hres herr hdiag hfile hg]
  refine ⟨hg0, ?_, ?_, ?_, ?_⟩
  · intro ev hev
    simp only [Run.after, List.singleton_append, List.mem_cons] at hev
    rcases hev with rfl | hev
    · rfl
    · exact (writeFile_quiet w l _ result file ev hev).2
  · intro ho
    simp [writeFile, ho, Run.after, sysdie]
  · intro ho hw
    have ho1 : ¬ w.openFd file < 0 := by omega
    by_cases hneg : w.writeRet (w.openFd file) result.stdout_buf < 0
    · exact ⟨"wallet: " ++ ("write to " ++ file ++ " failed") ++ ": " ++ w.strerror ++ "\n",
        by simp [writeFile, ho1, hneg, Run.after, sysdie]⟩
    · exact ⟨"wallet: " ++ ("write to " ++ file ++ " truncated") ++ "\n",
        by simp [writeFile, ho1, hneg, hw, Run.after, die]⟩
  · intro ho hw
    have ho1 : ¬ w.openFd file < 0 := by omega
    by_cases hc : w.closeRet (w.openFd file) < 0
    · simp [writeFile, ho1, hw, hc, Run.after, sysdie, fileBytes]
    · rw [writeFile_success w l _ result file ho hw (by omega)]
      cases l.srvtab with
      | none => simp [Run.after, fileBytes]
      | some srvtab =>
        simp only [hs3]
        cases w.srvtabDies srvtab (argv.getD 2 "") file <;>
          simp [Run.after, fileBytes]

/-- When the freed vector still reads as filled in and the primary file of a
request with `-f FILE` and `-S SRVTAB` is opened, fully written and closed on
the payload path, the derived-file writer is called once, right after the
close, with (SRVTAB, the third positional word, FILE). -/
theorem srvtab_writer_of_vector_survives (permute : Bool) (b : Build) (w : World)
    (args : List String) (l : Locals) (argv : List String) (result : remctl_result)
    (hacc : resolve permute b args = .ok (l, argv))
    (hres : w.remctl l.server l.port l.principal (l.type :: argv) = some result)
    (hsurv : vectorSurvives w (l.type :: argv))
    (hpath : srvtabPath w l result) :
    ∃ file srvtab name tail, l.file = some file ∧ l.srvtab = some srvtab ∧
      argv[2]? = some name ∧
      (main permute b w args).trace =
        [.remctl l.server l.port l.principal (l.type :: argv), .sysOpen file,
          .sysWrite file result.stdout_buf result.stdout_buf.length, .sysClose file,
          .write_srvtab srvtab name file] ++ tail ∧
      ∀ ev ∈ tail, isSrvtab ev = false := by
  rw [main_of_resolve_ok permute b w args l argv hacc]
  obtain ⟨-, -, hlen, hget, -⟩ := resolve_ok permute b args l argv hacc
  obtain ⟨hs1, hs3⟩ := vectorSurvives_slots w l argv hsurv hlen
  cases hfile : l.file with
  | none => simp [srvtabPath, hfile] at hpath
  | some file =>
  cases hsrv : l.srvtab with
  | none => simp [srvtabPath, hfile, hsrv] at hpath
  | some srvtab =>
  simp only [srvtabPath, hfile, hsrv] at hpath
  obtain ⟨herr, hdiag, ho, hw, hc⟩ := hpath
  have hg : w.freedSlot (l.type :: argv) 1 = some "get" := by
    rw [hs1]
    exact hget (by simp [hfile])
  have hname : argv[2]? = some (argv.getD 2 "") := by
    rcases argv with _ | ⟨a0, _ | ⟨a1, _ | ⟨a2, rest⟩⟩⟩
    · simp at hlen
    · simp at hlen
    · simp at hlen
    · simp
  rw [dispatch_file w l argv result file hres herr hdiag hfile hg,
    writeFile_success w l _ result file ho hw hc, hsrv]
  simp only [hs3]
  cases w.srvtabDies srvtab (argv.getD 2 "") file with
  | none =>
    exact ⟨file, srvtab, argv.getD 2 "", [], rfl, rfl, hname, by simp [Run.after], by simp⟩
  | some m =>
    exact ⟨file, srvtab, argv.getD 2 "", [.stderrText ("wallet: " ++ m ++ "\n")], rfl, rfl,
      hname, by simp [Run.after], by simp [isSrvtab]⟩

/-! ## Counterexamples to the claims as first stated, and instances -/

/-- C1, as stated, fails: in `wallet -h -p 0` the bad port `0` is among the
options, yet the run prints the usage message on standard output and exits
with code 0, under either scanning order; in `wallet -x -p 0` the diagnostic
is the usage message, not the port. -/
theorem invalid_port_counterexample :
    GetoptRet.withArg 'p' "0" ∈ options false ["-h", "-p", "0"] ∧ badPort "0" ∧
    main false exampleBuild (exampleWorld okResult) ["-h", "-p", "0"] =
      ⟨[.stdoutText (usage_message exampleBuild)], 0⟩ ∧
    main true exampleBuild (exampleWorld okResult) ["-h", "-p", "0"] =
      ⟨[.stdoutText (usage_message exampleBuild)], 0⟩ ∧
    GetoptRet.withArg 'p' "0" ∈ options false ["-x", "-p", "0"] ∧
    main false exampleBuild (exampleWorld okResult) ["-x", "-p", "0"] =
      ⟨[.getoptDiag 'x', .stderrText (usage_message exampleBuild)], 1⟩ :=
  ⟨by decide, by decide, rfl, rfl, by decide, rfl⟩

/-- Instance of C1 (amended): `wallet -s vault.example.com -p 70000 get file secret1`. -/
theorem invalid_port_is_fatal_witness :
    GetoptRet.withArg 'p' "70000" ∈
      options false ["-s", "vault.example.com", "-p", "70000", "get", "file", "secret1"] ∧
    badPort "70000" ∧
    main false exampleBuild (exampleWorld okResult)
        ["-s", "vault.example.com", "-p", "70000", "get", "file", "secret1"] =
      ⟨[.stderrText "wallet: invalid port number 70000\n"], 1⟩ :=
  ⟨by decide, by decide,
    (invalid_port_is_fatal false exampleBuild (exampleWorld okResult)
      ["-s", "vault.example.com", "-p", "70000", "get", "file", "secret1"] "70000"
      (by decide) (by decide)).2.2 [.withArg 's' "vault.example.com"] [] (by decide)
      (by decide)⟩

/-- C2, as stated, fails: in `wallet -S /tmp/legacy -f /tmp/out get keytab
host/example.com` no `-f` precedes the `-S`, yet the command line is accepted
and the remote call is made; and in `wallet -S /tmp/legacy -h` the words do
not begin with `get`, `keytab`, yet the exit code is 0. -/
theorem srvtab_option_counterexample :
    options false ["-S", "/tmp/legacy", "-f", "/tmp/out", "get", "keytab", "host/example.com"] =
      [.withArg 'S' "/tmp/legacy", .withArg 'f' "/tmp/out"] ∧
    remctlCalls (main false exampleBuild (exampleWorld okResult)
        ["-S", "/tmp/legacy", "-f", "/tmp/out", "get", "keytab", "host/example.com"]).trace =
      [.remctl "wallet.example.org" 4444 none
        ["wallet", "get", "keytab", "host/example.com"]] ∧
    words false ["-S", "/tmp/legacy", "-h"] = [] ∧
    main false exampleBuild (exampleWorld okResult) ["-S", "/tmp/legacy", "-h"] =
      ⟨[.stdoutText (usage_message exampleBuild)], 0⟩ :=
  ⟨by decide, by decide, by decide, rfl⟩

/-- Instance of C2 (amended): `wallet -S /tmp/legacy get keytab host/example.com`
has no `-f`. -/
theorem srvtab_option_requires_get_keytab_and_file_witness :
    GetoptRet.withArg 'S' "/tmp/legacy" ∈
      options false ["-S", "/tmp/legacy", "get", "keytab", "host/example.com"] ∧
    (∀ f, GetoptRet.withArg 'f' f ∉
      options false ["-S", "/tmp/legacy", "get", "keytab", "host/example.com"]) ∧
    remctlCalls (main false exampleBuild (exampleWorld okResult)
      ["-S", "/tmp/legacy", "get", "keytab", "host/example.com"]).trace = [] ∧
    fatalRun (main false exampleBuild (exampleWorld okResult)
      ["-S", "/tmp/legacy", "get", "keytab", "host/example.com"]) :=
  have hno : ∀ f, GetoptRet.withArg 'f' f ∉
      options false ["-S", "/tmp/legacy", "get", "keytab", "host/example.com"] := by
    intro f hf
    have : options false ["-S", "/tmp/legacy", "get", "keytab", "host/example.com"] =
        [.withArg 'S' "/tmp/legacy"] := by decide
    rw [this] at hf
    simp at hf
  have h := srvtab_option_requires_get_keytab_and_file false exampleBuild (exampleWorld okResult)
    ["-S", "/tmp/legacy", "get", "keytab", "host/example.com"] "/tmp/legacy" (by decide)
    (Or.inr hno)
  ⟨by decide, hno, h.1, h.2.1 (by decide) (by decide)⟩

/-- C3, as stated, fails: in `wallet -f /tmp/out -h put file x` the option `-f`
is given and the first word is `put`, yet the run prints the usage message on
standard output and exits with code 0; with `-v` in the place of `-h` it
prints the version line and exits with code 0. -/
theorem file_option_counterexample :
    options false ["-f", "/tmp/out", "-h", "put", "file", "x"] =
      [.withArg 'f' "/tmp/out", .flag 'h'] ∧
    words false ["-f", "/tmp/out", "-h", "put", "file", "x"] = ["put", "file", "x"] ∧
    main false exampleBuild (exampleWorld okResult) ["-f", "/tmp/out", "-h", "put", "file", "x"] =
      ⟨[.stdoutText (usage_message exampleBuild)], 0⟩ ∧
    words false ["-f", "/tmp/out", "-v", "put", "file", "x"] = ["put", "file", "x"] ∧
    main false exampleBuild (exampleWorld okResult) ["-f", "/tmp/out", "-v", "put", "file", "x"] =
      ⟨[.stdoutText "wallet 0.5\n"], 0⟩ :=
  ⟨by decide, by decide, rfl, by decide, by decide⟩

/-- Instance of C3 (amended): `wallet -f /tmp/out store file x`. -/
theorem file_option_requires_get_witness :
    GetoptRet.withArg 'f' "/tmp/out" ∈ options false ["-f", "/tmp/out", "store", "file", "x"] ∧
    (words false ["-f", "/tmp/out", "store", "file", "x"]).head? ≠ some "get" ∧
    main false exampleBuild (exampleWorld okResult) ["-f", "/tmp/out", "store", "file", "x"] =
      ⟨[.stderrText "wallet: -f only supported for get\n"], 1⟩ :=
  ⟨by decide, by decide,
    (file_option_requires_get false exampleBuild (exampleWorld okResult)
      ["-f", "/tmp/out", "store", "file", "x"] "/tmp/out" (by decide) (by decide)).2.2
      (by decide)⟩

/-- C4, as stated, fails: `wallet -h` leaves no positional word, yet the usage
message goes to standard output and the exit code is 0; `wallet -p 0 get`
leaves one word, yet the diagnostic is not the usage message. -/
theorem too_few_words_counterexample :
    words false ["-h"] = [] ∧
    main false exampleBuild (exampleWorld okResult) ["-h"] =
      ⟨[.stdoutText (usage_message exampleBuild)], 0⟩ ∧
    words false ["-p", "0", "get"] = ["get"] ∧
    main false exampleBuild (exampleWorld okResult) ["-p", "0", "get"] =
      ⟨[.stderrText "wallet: invalid port number 0\n"], 1⟩ :=
  ⟨by decide, rfl, by decide, by decide⟩

/-- Instance of C4 (amended): `wallet -k service/wallet get keytab`. -/
theorem too_few_words_usage_witness :
    (words false ["-k", "service/wallet", "get", "keytab"]).length < 3 ∧
    remctlCalls (main false exampleBuild (exampleWorld okResult)
      ["-k", "service/wallet", "get", "keytab"]).trace = [] ∧
    (main false exampleBuild (exampleWorld okResult) ["-k", "service/wallet", "get", "keytab"] =
        ⟨[.stderrText (usage_message exampleBuild)], 1⟩ ∨
      ∃ c, main false exampleBuild (exampleWorld okResult)
          ["-k", "service/wallet", "get", "keytab"] =
        ⟨[.getoptDiag c, .stderrText (usage_message exampleBuild)], 1⟩) :=
  have h := too_few_words_usage false exampleBuild (exampleWorld okResult)
    ["-k", "service/wallet", "get", "keytab"] (by decide)
  ⟨by decide, h.1, h.2 (by
    have hopt : options false ["-k", "service/wallet", "get", "keytab"] =
        [.withArg 'k' "service/wallet"] := by decide
    rw [hopt]
    intro e he
    rw [List.mem_singleton] at he
    subst he
    exact ⟨by decide, by decide, fun v hv => by cases hv⟩)⟩

/-- The port check on sample values: the empty string, a value without a
digit, zero, a negative value, 65536, a value beyond `LONG_MAX` and a value
with trailing characters are bad; 1, 65535 and a value behind white space and
a plus sign are not. -/
theorem badPort_samples :
    badPort "" ∧ badPort "x" ∧ badPort "0" ∧ badPort "-1" ∧ badPort "65536" ∧
    badPort "99999999999999999999" ∧ badPort "4444x" ∧ badPort "44 44" ∧
    ¬ badPort "1" ∧ ¬ badPort "65535" ∧ ¬ badPort " +4444" ∧
    strtol "99999999999999999999".data = (LONG_MAX, []) := by
  decide

/-- C5, as stated, fails: in `wallet -p 0 -h` and in `wallet -x -h` the option
`-h` is given, yet the exit code is 1. -/
theorem help_or_version_counterexample :
    GetoptRet.flag 'h' ∈ options false ["-p", "0", "-h"] ∧
    main false exampleBuild (exampleWorld okResult) ["-p", "0", "-h"] =
      ⟨[.stderrText "wallet: invalid port number 0\n"], 1⟩ ∧
    GetoptRet.flag 'h' ∈ options false ["-x", "-h"] ∧
    (main false exampleBuild (exampleWorld okResult) ["-x", "-h"]).code = 1 :=
  ⟨by decide, by decide, by decide, by decide⟩

/-- Instance of C5 (amended): `wallet -c acl -v get file x`. -/
theorem help_or_version_exits_zero_witness :
    GetoptRet.flag 'v' ∈ options false ["-c", "acl", "-v", "get", "file", "x"] ∧
    main false exampleBuild (exampleWorld okResult) ["-c", "acl", "-v", "get", "file", "x"] =
      ⟨[.stdoutText "wallet 0.5\n"], 0⟩ :=
  ⟨by decide,
    ((help_or_version_exits_zero false exampleBuild (exampleWorld okResult)
      ["-c", "acl", "-v", "get", "file", "x"] 'v' (Or.inr rfl) (by decide)).2
      [.withArg 'c' "acl"] [] (by decide)).2 (by decide)⟩

/-- Instance of C6: `wallet -c acl -k service/wallet -p 4445 show group admins`. -/
theorem remote_call_made_once_witness :
    remctlCalls (main true exampleBuild (exampleWorld okResult)
      ["-c", "acl", "-k", "service/wallet", "-p", "4445", "show", "group", "admins"]).trace =
      [.remctl "wallet.example.org" 4445 (some "service/wallet")
        ["acl", "show", "group", "admins"]] :=
  (remote_call_made_once true exampleBuild (exampleWorld okResult)
    ["-c", "acl", "-k", "service/wallet", "-p", "4445", "show", "group", "admins"]
    { type := "acl", server := "wallet.example.org", principal := some "service/wallet",
      port := 4445, file := none, srvtab := none }
    ["show", "group", "admins"] rfl).1

/-- Instance of C8: `wallet -s vault.example.com -p 4444 get file secret1` with
the remote error `unknown object`. -/
theorem remote_failure_is_reported_only_witness :
    main false exampleBuild (exampleWorld errorResult)
        ["-s", "vault.example.com", "-p", "4444", "get", "file", "secret1"] =
      ⟨[.remctl "vault.example.com" 4444 none ["wallet", "get", "file", "secret1"],
        .stderrText "wallet: unknown object\n"], 255⟩ :=
  (remote_failure_is_reported_only false exampleBuild (exampleWorld errorResult)
    ["-s", "vault.example.com", "-p", "4444", "get", "file", "secret1"]
    { plainLocals with server := "vault.example.com" } ["get", "file", "secret1"] errorResult
    rfl rfl (Or.inl (by decide))).1 "unknown object" rfl

/-! ## The reads of the freed command vector -/

/-- C7, at `wallet -f /tmp/out get file secret1`: the command line is accepted
and the remote call returns a payload with status 0, but the test of line 142
reads `command[1]` from the vector freed at line 134; under the GNU allocator
the process is killed there, before `open` and before `exit(result->status)`
is reached. -/
theorem exit_code_lost_after_free :
    resolve false exampleBuild ["-f", "/tmp/out", "get", "file", "secret1"] =
      .ok ({ plainLocals with file := some "/tmp/out" }, ["get", "file", "secret1"]) ∧
    (exampleWorld okResult).remctl "wallet.example.org" 4444 none
      ["wallet", "get", "file", "secret1"] = some okResult ∧
    okResult.status = 0 ∧
    main false exampleBuild (exampleWorld okResult)
        ["-f", "/tmp/out", "get", "file", "secret1"] =
      ⟨[.remctl "wallet.example.org" 4444 none ["wallet", "get", "file", "secret1"],
        .killed 11], 139⟩ :=
  ⟨rfl, rfl, rfl, by decide⟩

set_option maxRecDepth 8000 in
/-- C9, at `wallet -f /tmp/out get file secret1` with a payload of three
bytes: the read of `command[1]` from the freed vector kills the process before
`open`, and no byte reaches the file; with 128 words the vector is too large
for the allocator's cache, the read finds allocator data instead of `get`,
and the payload goes to standard output although `-f` is given. -/
theorem payload_lost_after_free :
    okResult.error = none ∧ okResult.stderr_buf = [] ∧
    okResult.stdout_buf = [107, 101, 121] ∧
    (∀ ev ∈ (main false exampleBuild (exampleWorld okResult)
        ["-f", "/tmp/out", "get", "file", "secret1"]).trace, isFileOp ev = false) ∧
    fileBytes "/tmp/out" (main false exampleBuild (exampleWorld okResult)
      ["-f", "/tmp/out", "get", "file", "secret1"]).trace = [] ∧
    main false exampleBuild (exampleWorld okResult)
        ("-f" :: "/tmp/out" :: "get" :: "file" :: List.replicate 126 "x") =
      ⟨[.remctl "wallet.example.org" 4444 none
          ("wallet" :: "get" :: "file" :: List.replicate 126 "x"),
        .stdoutBytes [107, 101, 121]], 0⟩ :=
  ⟨rfl, rfl, rfl, by decide, by decide, rfl⟩

end Wallet
